import Mathlib

/-!
Shallow embedding of the playback coordinator of `src/contexts/PlaybackContext.tsx`
and of the track-cache merge of `src/app/play.tsx`.

The coordinator owns a single mutable playback state (React `useState` fields
`sound`, `currentTrack`, `isPlaying`, `position`, `duration`, `playbackLock`)
and drives an external audio engine (`expo-av` `Audio.Sound`).  The embedding
makes the state explicit (`PState`), models the engine as a set of handle ids
with a loaded flag (`EngineState`), and models the outcomes of the external,
fallible engine calls (`loadAsync`, `getStatusAsync`, `playAsync`, `stopAsync`,
`unloadAsync`) as environment records supplied per call (`StopEnv`,
`AttemptEnv`, `CallEnv`): the engine is a black box, so whether a call throws
and what status it reports are inputs of the model.  The URL validator
(`new URL(...)` of the JS runtime) is likewise external and is passed as a
`String → Bool` parameter.  The code is single-threaded and each `await`
resolves before the next statement, so every operation is a plain state
transformer; the `setTimeout` retry of `play` is modelled as direct sequencing
(the timer callback sets the lock to false and re-invokes `play` with
`retryCount + 1`).  The `setOnPlaybackStatusUpdate` subscription installs a
callback that only mirrors engine ticks after a successful start; the ticks
themselves are outside the scope of the claims and are not modelled.
-/

/-- JS value of a track's `audio` field when present: either a bare URI string
or a structured locator object whose `uri` property may be absent. -/
inductive AudioRef where
  | str : String → AudioRef
  | obj : Option String → AudioRef
deriving Repr, DecidableEq

/-- Track record as used by the coordinator: `id`, `name` and the optional
`audio` reference.  Other fields of the JS objects are never read by the
coordinator. -/
structure Track where
  id : String
  name : String
  audio : Option AudioRef
deriving Repr, DecidableEq

/-- Engine status record as read by `play` (`getStatusAsync` result): the
coordinator reads only `isLoaded` and `durationMillis`. -/
structure SoundStatus where
  isLoaded : Bool
  durationMillis : Option Nat
deriving Repr, DecidableEq

/-- Outcomes of the engine calls made by one `stop()` invocation:
`getStatusAsync` (may throw; otherwise reports `statusIsLoaded`),
`stopAsync`, `unloadAsync` of the try block, and the defensive
`unloadAsync` of the finally block. -/
structure StopEnv where
  getStatusThrows : Bool
  statusIsLoaded : Bool
  stopThrows : Bool
  unloadThrows : Bool
  cleanupUnloadThrows : Bool
deriving Repr, DecidableEq

/-- Outcomes of the engine calls made by one attempt of `play`: the embedded
`stop()` call, then `loadAsync`, `getStatusAsync` (throw flag plus reported
status) and `playAsync` on the fresh handle. -/
structure AttemptEnv where
  stopEnv : StopEnv
  loadThrows : Bool
  getStatusThrows : Bool
  status : SoundStatus
  playThrows : Bool
deriving Repr, DecidableEq

/-- Outcomes of the engine calls made by `pause`/`resume`/`seek`:
`getStatusAsync` (throw flag plus reported `isLoaded`) and the transport
action itself. -/
structure CallEnv where
  getStatusThrows : Bool
  statusIsLoaded : Bool
  actionThrows : Bool
deriving Repr, DecidableEq

/-- External audio engine, abstracted: `nextId` numbers the `new Audio.Sound()`
constructions (so `nextId` counts the handles ever created), `loaded` lists the
handle ids whose `loadAsync` succeeded and which have not been successfully
unloaded — the handles that hold live engine resources. -/
structure EngineState where
  nextId : Nat
  loaded : List Nat
deriving Repr, DecidableEq

/-- Coordinator state: the `useState` fields of `PlaybackProvider`.  `sound`
holds the id of the tracked handle; `currentTrack` is the `{...track,
trackList}` object, modelled as the pair of the track and its attached list. -/
structure PState where
  sound : Option Nat
  currentTrack : Option (Track × List Track)
  isPlaying : Bool
  position : Nat
  duration : Nat
  playbackLock : Bool
deriving Repr, DecidableEq

/-- JS truthiness of `track?.audio` (guard at the top of `play`): false when
the track has no `audio` field or when `audio` is the empty string (a falsy
string); an object is always truthy. -/
def hasAudio (t : Track) : Bool :=
  match t.audio with
  | none => false
  | some (.str s) => !(s == "")
  | some (.obj _) => true

/-- Resolution `typeof track.audio === 'string' ? { uri: track.audio } :
track.audio` followed by reading `.uri`: a bare string becomes the URI, an
object contributes its `uri` property. -/
def resolvedUri (a : AudioRef) : Option String :=
  match a with
  | .str s => some s
  | .obj u => u

/-- Check `audioSource.uri && isValidUrl(audioSource.uri)` of `play`: the URI
must be present, truthy (non-empty) and accepted by the URL validator. -/
def sourceOk (validUrl : String → Bool) (a : AudioRef) : Bool :=
  match resolvedUri a with
  | none => false
  | some u => !(u == "") && validUrl u

/-- State reset performed by `stop()` (both in its early-return branch and in
its finally block): clears the tracked handle and current track, stops the
playing flag, zeroes position and duration; the lock is untouched. -/
def resetState (s : PState) : PState :=
  { s with sound := none, isPlaying := false, position := 0, duration := 0,
           currentTrack := none }

/-- Engine effect of a successful `unloadAsync` on handle `h`. -/
def engineUnload (h : Nat) (es : EngineState) : EngineState :=
  { es with loaded := es.loaded.erase h }

/-- Engine effect of a successful `loadAsync` on handle `h`. -/
def engineLoad (h : Nat) (es : EngineState) : EngineState :=
  { es with loaded := h :: es.loaded }

/-- Model of `stop()`.  With no tracked handle it only resets the state.  With
a tracked handle it queries the status; if that succeeds and reports loaded it
runs `stopAsync` then `unloadAsync` (each may throw, aborting the try block);
any failure is caught.  The finally block always attempts `unloadAsync` again
(the defensive double release) and always resets the state. -/
def stop (env : StopEnv) (s : PState) (es : EngineState) : PState × EngineState :=
  match s.sound with
  | none => (resetState s, es)
  | some h =>
      let es1 :=
        if env.getStatusThrows then es
        else if env.statusIsLoaded then
          if env.stopThrows then es
          else if env.unloadThrows then es
          else engineUnload h es
        else es
      let es2 := if env.cleanupUnloadThrows then es1 else engineUnload h es1
      (resetState s, es2)

/-- Model of one guarded attempt of `play` (the code from `setPlaybackLock(true)`
through the end of the catch block, excluding the retry scheduling and the
finally clause): acquire the lock, run `stop()`, construct a fresh
`Audio.Sound`, then inside the try block resolve and validate the source,
`loadAsync`, `setSound`, `getStatusAsync`, check `isLoaded`, `setDuration`,
`playAsync`, and on success set the playing flag, zero the position and record
the current track.  Every throw lands in the catch block, whose first effect is
`setSound(null)`; mutations made before the throw persist.  Returns the success
flag with the resulting states. -/
def playBody (validUrl : String → Bool) (track : Track) (trackList : List Track)
    (env : AttemptEnv) (s : PState) (es : EngineState) :
    Bool × PState × EngineState :=
  let s1 := { s with playbackLock := true }
  let s2 := (stop env.stopEnv s1 es).1
  let es2 := (stop env.stopEnv s1 es).2
  let h := es2.nextId
  let es3 := { es2 with nextId := es2.nextId + 1 }
  match track.audio with
  | none => (false, { s2 with sound := none }, es3)
  | some a =>
    if !(sourceOk validUrl a) then
      (false, { s2 with sound := none }, es3)
    else if env.loadThrows then
      (false, { s2 with sound := none }, es3)
    else
      let es4 := engineLoad h es3
      let s3 := { s2 with sound := some h }
      if env.getStatusThrows then
        (false, { s3 with sound := none }, es4)
      else if !env.status.isLoaded then
        (false, { s3 with sound := none }, es4)
      else
        let s4 := { s3 with duration := env.status.durationMillis.getD 0 }
        if env.playThrows then
          (false, { s4 with sound := none }, es4)
        else
          (true, { s4 with isPlaying := true, position := 0,
                           currentTrack := some (track, trackList) }, es4)

/-- Retry driver of `play`, structurally recursive on a fuel bound on the
number of timer-scheduled retries.  Each invocation re-checks the two guards
(`!track?.audio` and `playbackLock`), runs one attempt, and then mirrors the
catch/finally logic: on success the finally clause releases the lock only when
`retryCount` is 0; on failure with `retryCount < 2` the scheduled timer
callback releases the lock and re-invokes `play` with `retryCount + 1` (for
`retryCount = 0` the finally clause has already released it — same net state);
on failure with `retryCount ≥ 2` the catch's else branch releases the lock.
Since the code never retries past `retryCount = 2`, fuel 2 is never exhausted
for any entry `retryCount`; the fuel-0 fallback replicates the give-up branch
and is unreachable from `play`. -/
def playFuel (validUrl : String → Bool) (track : Track) (trackList : List Track)
    (env : Nat → AttemptEnv) :
    Nat → Nat → PState → EngineState → PState × EngineState
  | fuel, retryCount, s, es =>
    if !(hasAudio track) then (s, es)
    else if s.playbackLock then (s, es)
    else
      match playBody validUrl track trackList (env retryCount) s es, fuel with
      | (true, s1, es1), _ =>
          if retryCount == 0 then ({ s1 with playbackLock := false }, es1)
          else (s1, es1)
      | (false, s1, es1), fuel' + 1 =>
          if retryCount < 2 then
            playFuel validUrl track trackList env fuel' (retryCount + 1)
              { s1 with playbackLock := false } es1
          else ({ s1 with playbackLock := false }, es1)
      | (false, s1, es1), 0 => ({ s1 with playbackLock := false }, es1)

/-- Model of `play(track, trackList, retryCount)` run to completion, timer
retries included. -/
def play (validUrl : String → Bool) (track : Track) (trackList : List Track)
    (retryCount : Nat) (env : Nat → AttemptEnv) (s : PState) (es : EngineState) :
    PState × EngineState :=
  playFuel validUrl track trackList env 2 retryCount s es

/-- State at the moment one `play(track, trackList, retryCount)` invocation
returns (its promise resolves), before any timer it scheduled has fired: the
finally clause has run (releasing the lock iff `retryCount` is 0), and on the
`retryCount ≥ 2` failure path the catch's else branch has released the lock;
a pending retry has not yet executed.  `env` is the attempt environment of this
single invocation. -/
def playReturnState (validUrl : String → Bool) (track : Track)
    (trackList : List Track) (retryCount : Nat) (env : AttemptEnv)
    (s : PState) (es : EngineState) : PState × EngineState :=
  if !(hasAudio track) then (s, es)
  else if s.playbackLock then (s, es)
  else
    match playBody validUrl track trackList env s es with
    | (ok, s1, es1) =>
      if retryCount == 0 then ({ s1 with playbackLock := false }, es1)
      else if ok then (s1, es1)
      else if retryCount < 2 then (s1, es1)
      else ({ s1 with playbackLock := false }, es1)

/-- Model of `pause()`: no-op without a handle; otherwise query status (a throw
is caught and skips everything) and, only if loaded and currently playing, run
`pauseAsync` (a throw skips the flag update) and clear the playing flag. -/
def pause (env : CallEnv) (s : PState) : PState :=
  match s.sound with
  | none => s
  | some _ =>
    if env.getStatusThrows then s
    else if env.statusIsLoaded && s.isPlaying then
      if env.actionThrows then s else { s with isPlaying := false }
    else s

/-- Model of `resume()`: symmetric to `pause` — only if loaded and not playing,
run `playAsync` and set the playing flag. -/
def resume (env : CallEnv) (s : PState) : PState :=
  match s.sound with
  | none => s
  | some _ =>
    if env.getStatusThrows then s
    else if env.statusIsLoaded && !s.isPlaying then
      if env.actionThrows then s else { s with isPlaying := true }
    else s

/-- Model of `seek(value)`: no-op without a handle; otherwise, only if the
status query succeeds and reports loaded, run `setPositionAsync` and mirror the
value into `position`. -/
def seek (env : CallEnv) (v : Nat) (s : PState) : PState :=
  match s.sound with
  | none => s
  | some _ =>
    if env.getStatusThrows then s
    else if env.statusIsLoaded then
      if env.actionThrows then s else { s with position := v }
    else s

/-- Model of `playNext()`: no-op without a current track, with an empty
attached list, or while the lock is held.  Otherwise `findIndex` the current
track's id in the attached list (the not-found value -1 is replaced by 0), and
when an index to the right exists, invoke `play` on that adjacent track with
the same list. -/
def playNext (validUrl : String → Bool) (env : Nat → AttemptEnv)
    (s : PState) (es : EngineState) : PState × EngineState :=
  match s.currentTrack with
  | none => (s, es)
  | some (ct, tl) =>
    if tl.isEmpty || s.playbackLock then (s, es)
    else
      let currentIndex := (tl.findIdx? fun t => t.id == ct.id).getD 0
      if currentIndex < tl.length - 1 then
        play validUrl (tl.getD (currentIndex + 1) ct) tl 0 env s es
      else (s, es)

/-- Model of `playPrevious()`: mirror image of `playNext` toward lower
indices. -/
def playPrevious (validUrl : String → Bool) (env : Nat → AttemptEnv)
    (s : PState) (es : EngineState) : PState × EngineState :=
  match s.currentTrack with
  | none => (s, es)
  | some (ct, tl) =>
    if tl.isEmpty || s.playbackLock then (s, es)
    else
      let currentIndex := (tl.findIdx? fun t => t.id == ct.id).getD 0
      if 0 < currentIndex then
        play validUrl (tl.getD (currentIndex - 1) ct) tl 0 env s es
      else (s, es)

/-- JS `Array.prototype.filter` with an `(element, index)` callback, from the
cache merge of `src/app/play.tsx`; the index starts at the given offset. -/
def filterIdxAux (p : Track → Nat → Bool) : Nat → List Track → List Track
  | _, [] => []
  | i, t :: ts =>
      if p t i then t :: filterIdxAux p (i + 1) ts else filterIdxAux p (i + 1) ts

/-- Filter of `cacheTracks`: keep the element at `index` iff
`self.findIndex(t => t.id === track.id) === index`, i.e. keep the first
occurrence of each identifier.  (`findIndex` cannot return -1 here because the
element itself is in `self`, so `List.findIdx` is the faithful model.) -/
def cacheMergeSelf (self : List Track) : List Track :=
  filterIdxAux (fun track index => self.findIdx (fun t => t.id == track.id) == index)
    0 self

/-- Model of the merge step of `cacheTracks`: `[...existing, ...newTracks]`
deduplicated by identifier, keeping first occurrences. -/
def cacheMerge (existing newTracks : List Track) : List Track :=
  cacheMergeSelf (existing ++ newTracks)

/-- Character-list prefix test, used by the sample URL validator below. -/
def startsWithChars : List Char → List Char → Bool
  | _, [] => true
  | [], _ :: _ => false
  | c :: cs, d :: ds => c == d && startsWithChars cs ds

/-- Sample URL validator standing in for the JS `new URL(...)` check in
concrete evaluations: accepts exactly the strings with an explicit http(s)
scheme. -/
def sampleValidUrl (s : String) : Bool :=
  startsWithChars s.data "http://".data || startsWithChars s.data "https://".data

/-- Engine environment where every call succeeds and the status reports a
loaded sound of duration 120000 ms. -/
def stopEnvOk : StopEnv := ⟨false, true, false, false, false⟩

def attemptOk : AttemptEnv := ⟨stopEnvOk, false, false, ⟨true, some 120000⟩, false⟩

def attemptPlayFail : AttemptEnv := ⟨stopEnvOk, false, false, ⟨true, some 120000⟩, true⟩

def attemptLoadFail : AttemptEnv := ⟨stopEnvOk, true, false, ⟨true, some 120000⟩, false⟩

def trA : Track := ⟨"a", "A", some (.str "https://x/a.mp3")⟩
def trB : Track := ⟨"b", "B", some (.str "https://x/b.mp3")⟩
def trC : Track := ⟨"c", "C", some (.str "https://x/c.mp3")⟩
def trD : Track := ⟨"d", "D", some (.str "https://x/d.mp3")⟩
def trBadUrl : Track := ⟨"bad", "Bad", some (.str "notaurl")⟩
def trObjNone : Track := ⟨"o", "O", some (.obj none)⟩

def s0 : PState := ⟨none, none, false, 0, 0, false⟩
def es0 : EngineState := ⟨0, []⟩

def envC1 : Nat → AttemptEnv := fun k => if k == 0 then attemptPlayFail else attemptOk

/-- An attempt of `play` runs to the success branch exactly when the source
resolves to a valid URL and none of the engine calls of the attempt throws and
the queried status reports loaded. -/
def attemptSucceeds (validUrl : String → Bool) (track : Track) (a : AttemptEnv) : Bool :=
  (match track.audio with
   | some ar => sourceOk validUrl ar
   | none => false)
  && !a.loadThrows && !a.getStatusThrows && a.status.isLoaded && !a.playThrows

/-- Attempt environments under which the coordinator cannot leak a loaded
handle: the defensive unload of the embedded `stop` succeeds, and the attempt
either fails already at `loadAsync` or runs through to a successful start. -/
def safeAttempt (a : AttemptEnv) : Bool :=
  !a.stopEnv.cleanupUnloadThrows &&
  (a.loadThrows || (!a.getStatusThrows && a.status.isLoaded && !a.playThrows))

/-- Attempt fails before any engine resource is acquired: the source is
missing/invalid, or `loadAsync` itself throws. -/
def preLoadFail (validUrl : String → Bool) (track : Track) (a : AttemptEnv) : Bool :=
  (match track.audio with
   | some ar => !(sourceOk validUrl ar)
   | none => true)
  || a.loadThrows

/-- At most one live engine handle, and it is the tracked one. -/
def soleHandle (s : PState) (es : EngineState) : Prop :=
  es.loaded = [] ∨ ∃ h, s.sound = some h ∧ es.loaded = [h]

theorem stop_fst (env : StopEnv) (s : PState) (es : EngineState) :
    (stop env s es).1 = resetState s := by
  unfold stop
  cases s.sound <;> rfl

theorem stop_nextId (env : StopEnv) (s : PState) (es : EngineState) :
    (stop env s es).2.nextId = es.nextId := by
  unfold stop
  cases s.sound <;> simp only [engineUnload] <;> split_ifs <;> rfl

theorem stop_loaded_sole (env : StopEnv) (s : PState) (es : EngineState)
    (hsole : soleHandle s es) (hcu : env.cleanupUnloadThrows = false) :
    (stop env s es).2.loaded = [] := by
  unfold stop
  cases hs : s.sound with
  | none =>
    have hnil : es.loaded = [] := by
      rcases hsole with h1 | ⟨h', hh, _⟩
      · exact h1
      · rw [hs] at hh; exact absurd hh (by simp)
    simpa using hnil
  | some h =>
    have hl : es.loaded = [] ∨ es.loaded = [h] := by
      rcases hsole with h1 | ⟨h', hh, hl1⟩
      · exact Or.inl h1
      · rw [hs] at hh
        have := Option.some.inj hh
        subst this
        exact Or.inr hl1
    simp only [hcu, Bool.false_eq_true, if_false, engineUnload]
    have herase : ∀ l : List Nat, l = [] ∨ l = [h] → l.erase h = [] := by
      rintro l (rfl | rfl) <;> simp
    apply herase
    split_ifs <;>
      first
        | exact hl
        | (rcases hl with hl | hl <;> simp [hl])

theorem stop_none (env : StopEnv) (s : PState) (es : EngineState)
    (h : s.sound = none) : stop env s es = (resetState s, es) := by
  unfold stop
  rw [h]

theorem hasAudio_of_attemptSucceeds (validUrl : String → Bool) (track : Track)
    (a : AttemptEnv) (h : attemptSucceeds validUrl track a = true) :
    hasAudio track = true := by
  unfold attemptSucceeds at h
  unfold hasAudio
  cases htr : track.audio with
  | none => rw [htr] at h; simp at h
  | some ar =>
    rw [htr] at h
    cases ar with
    | str u =>
      simp only [Bool.and_eq_true] at h
      obtain ⟨⟨⟨⟨hsrc, _⟩, _⟩, _⟩, _⟩ := h
      unfold sourceOk resolvedUri at hsrc
      simp only [Bool.and_eq_true] at hsrc
      simp [hsrc.1]
    | obj u => rfl

theorem playBody_of_succeeds (validUrl : String → Bool) (track : Track)
    (trackList : List Track) (a : AttemptEnv) (s : PState) (es : EngineState)
    (h : attemptSucceeds validUrl track a = true) :
    playBody validUrl track trackList a s es =
      (true,
       { sound := some es.nextId, currentTrack := some (track, trackList),
         isPlaying := true, position := 0,
         duration := a.status.durationMillis.getD 0, playbackLock := true },
       { nextId := es.nextId + 1,
         loaded := es.nextId ::
           (stop a.stopEnv { s with playbackLock := true } es).2.loaded }) := by
  unfold attemptSucceeds at h
  cases htr : track.audio with
  | none => rw [htr] at h; simp at h
  | some ar =>
    rw [htr] at h
    simp only [Bool.and_eq_true, Bool.not_eq_true'] at h
    obtain ⟨⟨⟨⟨hsrc, hload⟩, hgs⟩, hld⟩, hplay⟩ := h
    unfold playBody
    rw [htr]
    simp only [stop_fst, stop_nextId, hsrc, hload, hgs, hld, hplay, engineLoad,
      resetState, Bool.not_true, Bool.false_eq_true, if_false, if_true]

theorem playBody_fail_sound_none (validUrl : String → Bool) (track : Track)
    (trackList : List Track) (a : AttemptEnv) (s : PState) (es : EngineState)
    (h : (playBody validUrl track trackList a s es).1 = false) :
    (playBody validUrl track trackList a s es).2.1.sound = none := by
  unfold playBody at h ⊢
  cases htr : track.audio with
  | none => simp
  | some ar =>
    by_cases hsrc : sourceOk validUrl ar <;>
      by_cases hl : a.loadThrows <;>
        by_cases hg : a.getStatusThrows <;>
          by_cases hil : a.status.isLoaded <;>
            by_cases hp : a.playThrows <;>
              simp_all

theorem playBody_preLoadFail (validUrl : String → Bool) (track : Track)
    (trackList : List Track) (a : AttemptEnv) (s : PState) (es : EngineState)
    (hpre : preLoadFail validUrl track a = true) :
    playBody validUrl track trackList a s es =
      (false, resetState { s with playbackLock := true },
       { (stop a.stopEnv { s with playbackLock := true } es).2 with
         nextId := es.nextId + 1 }) := by
  unfold preLoadFail at hpre
  unfold playBody
  cases htr : track.audio with
  | none =>
    simp only [stop_fst, stop_nextId, resetState]
  | some ar =>
    rw [htr] at hpre
    simp only [Bool.or_eq_true] at hpre
    cases hpre with
    | inl hsrc =>
      simp only [htr, stop_fst, stop_nextId, hsrc, resetState, if_true]
    | inr hload =>
      by_cases hsrc : sourceOk validUrl ar
      · simp only [htr, stop_fst, stop_nextId, hsrc, hload, resetState,
          Bool.not_true, Bool.false_eq_true, if_false, if_true]
      · simp only [htr, stop_fst, stop_nextId, resetState,
          (by simp [hsrc] : (!sourceOk validUrl ar) = true), if_true]

theorem play_allPreLoadFail (validUrl : String → Bool) (track : Track)
    (tl : List Track) (env : Nat → AttemptEnv) (s : PState) (es : EngineState)
    (haud : hasAudio track = true) (hlock : s.playbackLock = false)
    (hpre : ∀ k, preLoadFail validUrl track (env k) = true) :
    play validUrl track tl 0 env s es =
      ({ sound := none, currentTrack := none, isPlaying := false, position := 0,
         duration := 0, playbackLock := false },
       { nextId := es.nextId + 3,
         loaded := (stop (env 0).stopEnv { s with playbackLock := true } es).2.loaded }) := by
  unfold play
  rw [playFuel.eq_def]
  simp [haud, hlock, playBody_preLoadFail, hpre, stop_none, stop_nextId,
    resetState, playFuel.eq_def]

theorem play_noAudio (validUrl : String → Bool) (track : Track) (tl : List Track)
    (rc : Nat) (env : Nat → AttemptEnv) (s : PState) (es : EngineState)
    (h : hasAudio track = false) :
    play validUrl track tl rc env s es = (s, es) := by
  unfold play
  rw [playFuel.eq_def]
  simp [h]

theorem play_locked (validUrl : String → Bool) (track : Track) (tl : List Track)
    (rc : Nat) (env : Nat → AttemptEnv) (s : PState) (es : EngineState)
    (h : s.playbackLock = true) :
    play validUrl track tl rc env s es = (s, es) := by
  unfold play
  rw [playFuel.eq_def]
  by_cases ha : hasAudio track <;> simp [h, ha]

theorem play_succeed0 (validUrl : String → Bool) (track : Track) (tl : List Track)
    (env : Nat → AttemptEnv) (s : PState) (es : EngineState)
    (hlock : s.playbackLock = false)
    (hsucc : attemptSucceeds validUrl track (env 0) = true) :
    play validUrl track tl 0 env s es =
      ({ sound := some es.nextId, currentTrack := some (track, tl),
         isPlaying := true, position := 0,
         duration := (env 0).status.durationMillis.getD 0, playbackLock := false },
       { nextId := es.nextId + 1,
         loaded := es.nextId ::
           (stop (env 0).stopEnv { s with playbackLock := true } es).2.loaded }) := by
  unfold play
  rw [playFuel.eq_def]
  simp [hasAudio_of_attemptSucceeds validUrl track (env 0) hsucc, hlock,
    playBody_of_succeeds validUrl track tl (env 0) s es hsucc]

theorem play_succeedPos (validUrl : String → Bool) (track : Track) (tl : List Track)
    (rc : Nat) (env : Nat → AttemptEnv) (s : PState) (es : EngineState)
    (hrc : 0 < rc) (hlock : s.playbackLock = false)
    (hsucc : attemptSucceeds validUrl track (env rc) = true) :
    (play validUrl track tl rc env s es).1.playbackLock = true := by
  unfold play
  rw [playFuel.eq_def]
  have hrc0 : (rc == 0) = false := by simp; omega
  simp [hasAudio_of_attemptSucceeds validUrl track (env rc) hsucc, hlock,
    playBody_of_succeeds validUrl track tl (env rc) s es hsucc, hrc0]

theorem playBody_sole (validUrl : String → Bool) (track : Track) (tl : List Track)
    (a : AttemptEnv) (s : PState) (es : EngineState)
    (hsafe : safeAttempt a = true) (hsole : soleHandle s es) :
    soleHandle (playBody validUrl track tl a s es).2.1
      (playBody validUrl track tl a s es).2.2 := by
  unfold safeAttempt at hsafe
  simp only [Bool.and_eq_true, Bool.or_eq_true, Bool.not_eq_true'] at hsafe
  obtain ⟨hcu, hrest⟩ := hsafe
  have hsole1 : soleHandle { s with playbackLock := true } es := hsole
  have hstop := stop_loaded_sole a.stopEnv { s with playbackLock := true } es hsole1 hcu
  by_cases hpre : preLoadFail validUrl track a = true
  · rw [playBody_preLoadFail validUrl track tl a s es hpre]
    left
    simpa using hstop
  · have hnotpre := eq_false_of_ne_true hpre
    unfold preLoadFail at hnotpre
    cases htr : track.audio with
    | none => rw [htr] at hnotpre; simp at hnotpre
    | some ar =>
      rw [htr] at hnotpre
      simp only [Bool.or_eq_false_iff, Bool.not_eq_false'] at hnotpre
      obtain ⟨hsrc, hload⟩ := hnotpre
      have hg : (a.getStatusThrows = false ∧ a.status.isLoaded = true) ∧
          a.playThrows = false := by
        cases hrest with
        | inl h => rw [h] at hload; exact absurd hload (by simp)
        | inr h => exact h
      have hsucc : attemptSucceeds validUrl track a = true := by
        unfold attemptSucceeds
        rw [htr]
        simp [hsrc, hload, hg.1.1, hg.1.2, hg.2]
      rw [playBody_of_succeeds validUrl track tl a s es hsucc]
      right
      exact ⟨es.nextId, rfl, by simp [hstop]⟩

theorem playFuel_sole (validUrl : String → Bool) (track : Track) (tl : List Track)
    (env : Nat → AttemptEnv) :
    ∀ (fuel rc : Nat) (s : PState) (es : EngineState),
      (∀ k, safeAttempt (env k) = true) → soleHandle s es →
      soleHandle (playFuel validUrl track tl env fuel rc s es).1
        (playFuel validUrl track tl env fuel rc s es).2 := by
  intro fuel
  induction fuel with
  | zero =>
    intro rc s es hsafe hsole
    rw [playFuel.eq_def]
    by_cases ha : hasAudio track
    case neg => simpa [ha] using hsole
    by_cases hl : s.playbackLock
    case pos => simpa [ha, hl] using hsole
    have hs := playBody_sole validUrl track tl (env rc) s es (hsafe rc) hsole
    rcases hpb : playBody validUrl track tl (env rc) s es with ⟨ok, s1, es1⟩
    rw [hpb] at hs
    simp only [ha, hl, Bool.not_true, Bool.false_eq_true, if_false, hpb]
    cases ok
    · exact hs
    · by_cases hrc : (rc == 0) = true <;>
        simp only [hrc, if_true, Bool.false_eq_true, if_false] <;> exact hs
  | succ n ih =>
    intro rc s es hsafe hsole
    rw [playFuel.eq_def]
    by_cases ha : hasAudio track
    case neg => simpa [ha] using hsole
    by_cases hl : s.playbackLock
    case pos => simpa [ha, hl] using hsole
    have hs := playBody_sole validUrl track tl (env rc) s es (hsafe rc) hsole
    rcases hpb : playBody validUrl track tl (env rc) s es with ⟨ok, s1, es1⟩
    rw [hpb] at hs
    simp only [ha, hl, Bool.not_true, Bool.false_eq_true, if_false, hpb]
    cases ok
    · by_cases hrc : rc < 2
      · simp only [hrc, if_true]
        exact ih (rc + 1) { s1 with playbackLock := false } es1 hsafe hs
      · simp only [hrc, if_false]
        exact hs
    · by_cases hrc : (rc == 0) = true <;>
        simp only [hrc, if_true, Bool.false_eq_true, if_false] <;> exact hs

theorem playBody_nextId (validUrl : String → Bool) (track : Track) (tl : List Track)
    (a : AttemptEnv) (s : PState) (es : EngineState) :
    (playBody validUrl track tl a s es).2.2.nextId = es.nextId + 1 := by
  unfold playBody
  cases htr : track.audio with
  | none => simp [stop_nextId]
  | some ar =>
    by_cases hsrc : sourceOk validUrl ar <;>
      by_cases hl : a.loadThrows <;>
        by_cases hg : a.getStatusThrows <;>
          by_cases hil : a.status.isLoaded <;>
            by_cases hp : a.playThrows <;>
              simp [hsrc, hl, hg, hil, hp, engineLoad, stop_nextId]

theorem playReturn_lock0 (validUrl : String → Bool) (track : Track) (tl : List Track)
    (a : AttemptEnv) (s : PState) (es : EngineState)
    (hlock : s.playbackLock = false) :
    (playReturnState validUrl track tl 0 a s es).1.playbackLock = false := by
  unfold playReturnState
  by_cases ha : hasAudio track
  · rcases hpb : playBody validUrl track tl a s es with ⟨ok, s1, es1⟩
    simp [ha, hlock, hpb]
  · simp [ha, hlock]

theorem playReturn_nextId (validUrl : String → Bool) (track : Track) (tl : List Track)
    (rc : Nat) (a : AttemptEnv) (s : PState) (es : EngineState)
    (hlock : s.playbackLock = false) (ha : hasAudio track = true) :
    (playReturnState validUrl track tl rc a s es).2.nextId = es.nextId + 1 := by
  unfold playReturnState
  rcases hpb : playBody validUrl track tl a s es with ⟨ok, s1, es1⟩
  have hn := playBody_nextId validUrl track tl a s es
  rw [hpb] at hn
  simp only [ha, hlock, Bool.not_true, Bool.false_eq_true, if_false, hpb]
  split_ifs <;> exact hn

theorem playReturn_retryKeepsLock (validUrl : String → Bool) (track : Track)
    (tl : List Track) (rc : Nat) (a : AttemptEnv) (s : PState) (es : EngineState)
    (hrc : 0 < rc) (hlock : s.playbackLock = false)
    (hsucc : attemptSucceeds validUrl track a = true) :
    (playReturnState validUrl track tl rc a s es).1.playbackLock = true := by
  unfold playReturnState
  rw [playBody_of_succeeds validUrl track tl a s es hsucc]
  have ha := hasAudio_of_attemptSucceeds validUrl track a hsucc
  have hrc0 : (rc == 0) = false := by simp; omega
  simp [ha, hlock, hrc0]

theorem playNext_locked (validUrl : String → Bool) (env : Nat → AttemptEnv)
    (s : PState) (es : EngineState) (h : s.playbackLock = true) :
    playNext validUrl env s es = (s, es) := by
  unfold playNext
  cases hct : s.currentTrack with
  | none => rfl
  | some p =>
    rcases p with ⟨ct, tl⟩
    simp [h]

theorem playPrevious_locked (validUrl : String → Bool) (env : Nat → AttemptEnv)
    (s : PState) (es : EngineState) (h : s.playbackLock = true) :
    playPrevious validUrl env s es = (s, es) := by
  unfold playPrevious
  cases hct : s.currentTrack with
  | none => rfl
  | some p =>
    rcases p with ⟨ct, tl⟩
    simp [h]

theorem isEmpty_false_of_ne_nil {tl : List Track} (hne : tl ≠ []) :
    tl.isEmpty = false := by
  cases tl with
  | nil => exact absurd rfl hne
  | cons a l => rfl

theorem playNext_atEnd (validUrl : String → Bool) (env : Nat → AttemptEnv)
    (s : PState) (es : EngineState) (ct : Track) (tl : List Track)
    (hct : s.currentTrack = some (ct, tl)) (hlock : s.playbackLock = false)
    (hne : tl ≠ [])
    (hidx : ¬((tl.findIdx? fun t => t.id == ct.id).getD 0 < tl.length - 1)) :
    playNext validUrl env s es = (s, es) := by
  unfold playNext
  rw [hct]
  simp [isEmpty_false_of_ne_nil hne, hlock, hidx]

theorem playNext_adjacent (validUrl : String → Bool) (env : Nat → AttemptEnv)
    (s : PState) (es : EngineState) (ct : Track) (tl : List Track)
    (hct : s.currentTrack = some (ct, tl)) (hlock : s.playbackLock = false)
    (hne : tl ≠ [])
    (hidx : (tl.findIdx? fun t => t.id == ct.id).getD 0 < tl.length - 1) :
    playNext validUrl env s es =
      play validUrl (tl.getD ((tl.findIdx? fun t => t.id == ct.id).getD 0 + 1) ct)
        tl 0 env s es := by
  unfold playNext
  rw [hct]
  simp [isEmpty_false_of_ne_nil hne, hlock, hidx]

theorem playPrevious_atStart (validUrl : String → Bool) (env : Nat → AttemptEnv)
    (s : PState) (es : EngineState) (ct : Track) (tl : List Track)
    (hct : s.currentTrack = some (ct, tl)) (hlock : s.playbackLock = false)
    (hne : tl ≠ [])
    (hidx : (tl.findIdx? fun t => t.id == ct.id).getD 0 = 0) :
    playPrevious validUrl env s es = (s, es) := by
  unfold playPrevious
  rw [hct]
  simp [isEmpty_false_of_ne_nil hne, hlock, hidx]

theorem playPrevious_adjacent (validUrl : String → Bool) (env : Nat → AttemptEnv)
    (s : PState) (es : EngineState) (ct : Track) (tl : List Track)
    (hct : s.currentTrack = some (ct, tl)) (hlock : s.playbackLock = false)
    (hne : tl ≠ [])
    (hidx : 0 < (tl.findIdx? fun t => t.id == ct.id).getD 0) :
    playPrevious validUrl env s es =
      play validUrl (tl.getD ((tl.findIdx? fun t => t.id == ct.id).getD 0 - 1) ct)
        tl 0 env s es := by
  unfold playPrevious
  rw [hct]
  simp [isEmpty_false_of_ne_nil hne, hlock, hidx]

theorem stop_lock (env : StopEnv) (s : PState) (es : EngineState) :
    (stop env s es).1.playbackLock = s.playbackLock := by
  rw [stop_fst]
  rfl

theorem pause_lock (env : CallEnv) (s : PState) :
    (pause env s).playbackLock = s.playbackLock := by
  unfold pause
  cases s.sound <;> [rfl; (split_ifs <;> rfl)]

theorem resume_lock (env : CallEnv) (s : PState) :
    (resume env s).playbackLock = s.playbackLock := by
  unfold resume
  cases s.sound <;> [rfl; (split_ifs <;> rfl)]

theorem seek_lock (env : CallEnv) (v : Nat) (s : PState) :
    (seek env v s).playbackLock = s.playbackLock := by
  unfold seek
  cases s.sound <;> [rfl; (split_ifs <;> rfl)]

theorem filterIdxAux_allKept (p : Track → Nat → Bool) :
    ∀ (l : List Track) (n : Nat),
      (∀ i t, l[i]? = some t → p t (n + i) = true) → filterIdxAux p n l = l := by
  intro l
  induction l with
  | nil => intro n _; rfl
  | cons t ts ih =>
    intro n h
    have ht : p t n = true := by
      have := h 0 t (by simp)
      simpa using this
    simp only [filterIdxAux, ht, if_true]
    congr 1
    apply ih
    intro i u hu
    have := h (i + 1) u (by simpa using hu)
    simpa [Nat.add_assoc, Nat.add_comm 1 i] using this

theorem filterIdxAux_allDropped (p : Track → Nat → Bool) :
    ∀ (l : List Track) (n : Nat),
      (∀ i t, l[i]? = some t → p t (n + i) = false) → filterIdxAux p n l = [] := by
  intro l
  induction l with
  | nil => intro n _; rfl
  | cons t ts ih =>
    intro n h
    have ht : p t n = false := by
      have := h 0 t (by simp)
      simpa using this
    simp only [filterIdxAux, ht, if_false]
    apply ih
    intro i u hu
    have := h (i + 1) u (by simpa using hu)
    simpa [Nat.add_assoc, Nat.add_comm 1 i] using this

theorem filterIdxAux_append (p : Track → Nat → Bool) :
    ∀ (A B : List Track) (n : Nat),
      filterIdxAux p n (A ++ B) = filterIdxAux p n A ++ filterIdxAux p (n + A.length) B := by
  intro A
  induction A with
  | nil => intro B n; simp [filterIdxAux]
  | cons t ts ih =>
    intro B n
    have harith : n + (ts.length + 1) = n + 1 + ts.length := by omega
    simp only [List.cons_append, filterIdxAux, List.length_cons, harith]
    by_cases h : p t n <;> simp [h] <;> exact ih B (n + 1)

theorem mem_filterIdxAux_ge (g : Track → Nat) :
    ∀ (l : List Track) (n : Nat) (u : Track),
      u ∈ filterIdxAux (fun t i => g t == i) n l → n ≤ g u := by
  intro l
  induction l with
  | nil => intro n u h; simp [filterIdxAux] at h
  | cons t ts ih =>
    intro n u h
    by_cases ht : g t == n
    · simp only [filterIdxAux, ht, if_true, List.mem_cons] at h
      cases h with
      | inl he =>
        subst he
        have : g u = n := by simpa using ht
        omega
      | inr hm => exact Nat.le_of_succ_le (ih (n + 1) u hm)
    · simp only [filterIdxAux, ht, if_false] at h
      exact Nat.le_of_succ_le (ih (n + 1) u h)

theorem nodup_filterIdxAux (g : Track → Nat)
    (hg : ∀ t u : Track, t.id = u.id → g t = g u) :
    ∀ (l : List Track) (n : Nat),
      ((filterIdxAux (fun t i => g t == i) n l).map (fun t => t.id)).Nodup := by
  intro l
  induction l with
  | nil => intro n; simp [filterIdxAux]
  | cons t ts ih =>
    intro n
    by_cases ht : g t == n
    · simp only [filterIdxAux, ht, if_true, List.map_cons, List.nodup_cons]
      refine ⟨?_, ih (n + 1)⟩
      intro hmem
      obtain ⟨u, hu, hid⟩ := List.mem_map.mp hmem
      have hge : n + 1 ≤ g u := mem_filterIdxAux_ge g ts (n + 1) u hu
      have : g t = g u := hg t u hid.symm
      have hn : g t = n := by simpa using ht
      omega
    · simp only [filterIdxAux, ht, if_false]
      exact ih (n + 1)

theorem nodup_ids_findIdx {l : List Track} (hnd : (l.map (fun t => t.id)).Nodup)
    {i : Nat} {t : Track} (hget : l[i]? = some t) :
    l.findIdx (fun u => u.id == t.id) = i := by
  obtain ⟨hi, hit⟩ := List.getElem?_eq_some_iff.mp hget
  rw [List.findIdx_eq hi]
  constructor
  · simp [hit]
  · intro j hji
    by_contra hb
    simp only [Bool.not_eq_false, beq_iff_eq] at hb
    have hjlen : j < l.length := Nat.lt_trans hji hi
    have hmlenI : i < (l.map (fun t => t.id)).length := by simpa using hi
    have hmlenJ : j < (l.map (fun t => t.id)).length := by simpa using hjlen
    have heq : (l.map (fun t => t.id))[j] = (l.map (fun t => t.id))[i] := by
      simp only [List.getElem_map]
      rw [hb, hit]
    have hji2 : j = i := (List.Nodup.getElem_inj_iff hnd).mp heq
    omega

theorem cacheMergeSelf_ids_nodup (self : List Track) :
    ((cacheMergeSelf self).map (fun t => t.id)).Nodup := by
  unfold cacheMergeSelf
  exact nodup_filterIdxAux (fun t => self.findIdx fun u => u.id == t.id)
    (fun t u hid => by
      show self.findIdx (fun v => v.id == t.id) = self.findIdx (fun v => v.id == u.id)
      rw [hid]) self 0

theorem mem_filterIdxAux_of (p : Track → Nat → Bool) :
    ∀ (l : List Track) (n j : Nat) (t : Track),
      l[j]? = some t → p t (n + j) = true → t ∈ filterIdxAux p n l := by
  intro l
  induction l with
  | nil => intro n j t hget _; simp at hget
  | cons u us ih =>
    intro n j t hget hp
    cases j with
    | zero =>
      simp only [List.getElem?_cons_zero, Option.some.injEq] at hget
      subst hget
      simp only [Nat.add_zero] at hp
      simp [filterIdxAux, hp]
    | succ j' =>
      simp only [List.getElem?_cons_succ] at hget
      have hp' : p t (n + 1 + j') = true := by
        have : n + 1 + j' = n + (j' + 1) := by omega
        rw [this]; exact hp
      have hmem := ih (n + 1) j' t hget hp'
      by_cases hu : p u n <;> simp [filterIdxAux, hu, hmem]

theorem cacheMergeSelf_id_mem (self : List Track) (t : Track) (ht : t ∈ self) :
    ∃ u ∈ cacheMergeSelf self, u.id = t.id := by
  have hex : ∃ x ∈ self, (fun u => u.id == t.id) x = true := ⟨t, ht, by simp⟩
  have hlt : self.findIdx (fun u => u.id == t.id) < self.length :=
    List.findIdx_lt_length.mpr hex
  have hget := List.getElem?_eq_getElem hlt
  have hu := List.findIdx_of_getElem?_eq_some hget
  have huid : (self[self.findIdx (fun u => u.id == t.id)]).id = t.id := by
    simpa using hu
  refine ⟨self[self.findIdx (fun u => u.id == t.id)], ?_, huid⟩
  unfold cacheMergeSelf
  apply mem_filterIdxAux_of _ self 0 (self.findIdx fun u => u.id == t.id) _ hget
  simp only [Nat.zero_add, huid, beq_iff_eq]

theorem nodup_cacheMergeSelf_eq (l : List Track)
    (hnd : (l.map (fun t => t.id)).Nodup) : cacheMergeSelf l = l := by
  unfold cacheMergeSelf
  apply filterIdxAux_allKept
  intro i t hget
  have := nodup_ids_findIdx hnd hget
  simpa using this

theorem cacheMergeSelf_absorb (L b : List Track)
    (hnd : (L.map (fun t => t.id)).Nodup)
    (hsub : ∀ t ∈ b, ∃ u ∈ L, u.id = t.id) :
    cacheMergeSelf (L ++ b) = L := by
  unfold cacheMergeSelf
  rw [filterIdxAux_append]
  have h1 : filterIdxAux
      (fun track index => ((L ++ b).findIdx fun t => t.id == track.id) == index) 0 L = L := by
    apply filterIdxAux_allKept
    intro i t hget
    obtain ⟨hi, hit⟩ := List.getElem?_eq_some_iff.mp hget
    have hfl : L.findIdx (fun u => u.id == t.id) = i := nodup_ids_findIdx hnd hget
    rw [List.findIdx_append]
    simp only [hfl, hi, if_true, Nat.zero_add, beq_iff_eq]
  have h2 : filterIdxAux
      (fun track index => ((L ++ b).findIdx fun t => t.id == track.id) == index)
      (0 + L.length) b = [] := by
    apply filterIdxAux_allDropped
    intro k t hget
    have htb : t ∈ b := List.getElem?_mem hget
    obtain ⟨u, huL, huid⟩ := hsub t htb
    have hlt : L.findIdx (fun v => v.id == t.id) < L.length :=
      List.findIdx_lt_length.mpr ⟨u, huL, by simp [huid]⟩
    rw [List.findIdx_append]
    simp only [hlt, if_true, beq_eq_false_iff_ne]
    omega
  rw [h1, h2, List.append_nil]

theorem cacheMerge_ids_nodup (existing newTracks : List Track) :
    ((cacheMerge existing newTracks).map (fun t => t.id)).Nodup :=
  cacheMergeSelf_ids_nodup (existing ++ newTracks)

theorem cacheMerge_idem (existing batch : List Track) :
    cacheMerge (cacheMerge existing batch) batch = cacheMerge existing batch := by
  show cacheMergeSelf (cacheMergeSelf (existing ++ batch) ++ batch) = cacheMerge existing batch
  rw [cacheMergeSelf_absorb (cacheMergeSelf (existing ++ batch)) batch
    (cacheMergeSelf_ids_nodup (existing ++ batch))
    (fun t ht => cacheMergeSelf_id_mem (existing ++ batch) t
      (List.mem_append.mpr (Or.inr ht)))]
  rfl


theorem playBody_fails_of_not_succeeds (validUrl : String → Bool) (track : Track)
    (tl : List Track) (a : AttemptEnv) (s : PState) (es : EngineState)
    (h : attemptSucceeds validUrl track a = false) :
    (playBody validUrl track tl a s es).1 = false := by
  unfold attemptSucceeds at h
  unfold playBody
  cases htr : track.audio with
  | none => simp
  | some ar =>
    rw [htr] at h
    by_cases hsrc : sourceOk validUrl ar <;>
      by_cases hl : a.loadThrows <;>
        by_cases hg : a.getStatusThrows <;>
          by_cases hil : a.status.isLoaded <;>
            by_cases hp : a.playThrows <;>
              simp_all

theorem playBody_fail_currentTrack_none (validUrl : String → Bool) (track : Track)
    (tl : List Track) (a : AttemptEnv) (s : PState) (es : EngineState)
    (h : (playBody validUrl track tl a s es).1 = false) :
    (playBody validUrl track tl a s es).2.1.currentTrack = none := by
  unfold playBody at h ⊢
  cases htr : track.audio with
  | none => simp [stop_fst, resetState]
  | some ar =>
    by_cases hsrc : sourceOk validUrl ar <;>
      by_cases hl : a.loadThrows <;>
        by_cases hg : a.getStatusThrows <;>
          by_cases hil : a.status.isLoaded <;>
            by_cases hp : a.playThrows <;>
              simp_all [stop_fst, resetState]

theorem playFuel_allFail (validUrl : String → Bool) (track : Track) (tl : List Track)
    (env : Nat → AttemptEnv) (haud : hasAudio track = true)
    (hfail : ∀ (k : Nat) (su : PState) (eu : EngineState),
      (playBody validUrl track tl (env k) su eu).1 = false) :
    ∀ (fuel rc : Nat) (s : PState) (es : EngineState), s.playbackLock = false →
      (playFuel validUrl track tl env fuel rc s es).1.currentTrack = none ∧
      (playFuel validUrl track tl env fuel rc s es).1.sound = none ∧
      (playFuel validUrl track tl env fuel rc s es).1.playbackLock = false := by
  intro fuel
  induction fuel with
  | zero =>
    intro rc s es hlock
    rw [playFuel.eq_def]
    have hct :=
      playBody_fail_currentTrack_none validUrl track tl (env rc) s es (hfail rc s es)
    have hsn := playBody_fail_sound_none validUrl track tl (env rc) s es (hfail rc s es)
    have hok := hfail rc s es
    rcases hpb : playBody validUrl track tl (env rc) s es with ⟨ok, s1, es1⟩
    rw [hpb] at hct hsn hok
    cases ok
    · simp only [haud, hlock, Bool.not_true, Bool.false_eq_true, if_false, hpb]
      exact ⟨hct, hsn, by simp⟩
    · exact absurd hok (by simp)
  | succ n ih =>
    intro rc s es hlock
    rw [playFuel.eq_def]
    have hct :=
      playBody_fail_currentTrack_none validUrl track tl (env rc) s es (hfail rc s es)
    have hsn := playBody_fail_sound_none validUrl track tl (env rc) s es (hfail rc s es)
    have hok := hfail rc s es
    rcases hpb : playBody validUrl track tl (env rc) s es with ⟨ok, s1, es1⟩
    rw [hpb] at hct hsn hok
    cases ok
    · by_cases hrc : rc < 2
      · simp only [haud, hlock, Bool.not_true, Bool.false_eq_true, if_false, hpb,
          hrc, if_true]
        exact ih (rc + 1) { s1 with playbackLock := false } es1 rfl
      · simp only [haud, hlock, Bool.not_true, Bool.false_eq_true, if_false, hpb,
          hrc]
        exact ⟨hct, hsn, by simp⟩
    · exact absurd hok (by simp)


/-- Playback state with a current track attached to the list `[trA, trB, trC]`
and a live tracked handle, as after a successful play of `trB`. -/
def sB : PState := ⟨some 0, some (trB, [trA, trB, trC]), true, 0, 100, false⟩

/-- Same as `sB` but the current track is `trC` (the last of the list). -/
def sC : PState := ⟨some 0, some (trC, [trA, trB, trC]), true, 0, 100, false⟩

/-- Same as `sB` but the current track is `trA` (the first of the list). -/
def sA : PState := ⟨some 0, some (trA, [trA, trB, trC]), true, 0, 100, false⟩

/-- Same as `sB` but the current track `trD` does not occur in the attached
list. -/
def sD : PState := ⟨some 0, some (trD, [trA, trB, trC]), true, 0, 100, false⟩

/-- Engine state matching `sB`: one handle created and loaded. -/
def esB : EngineState := ⟨1, [0]⟩

/-- Idle playback state that still remembers a current track. -/
def sWithTrack : PState := ⟨none, some (trA, []), false, 0, 5, false⟩

/-- C1 (counterexample).  The claim says no operation, including the
load-failure/retry path of `play`, leaves a second loaded handle alive.  Run
`play` on `trA` from the idle state with an engine that loads and confirms
handle 0 but throws on `playAsync`; the catch path drops the reference
(`setSound(null)`) without unloading, and the retry creates and loads
handle 1.  Afterwards two engine handles are loaded simultaneously, with only
handle 1 tracked. -/
theorem c1_counterexample :
    (play sampleValidUrl trA [] 0 envC1 s0 es0).2.loaded = [1, 0] ∧
    (play sampleValidUrl trA [] 0 envC1 s0 es0).1.sound = some 1 := by
  decide

/-- C1 (amended): at most one loaded engine handle is alive — and it is the
tracked one — provided every attempt either fails no later than `loadAsync` or
fully succeeds and the defensive unload in `stop` succeeds (`safeAttempt`); the
counterexample shows the invariant breaks when an attempt fails after a
successful load.  `stop` itself preserves the invariant whenever its cleanup
unload succeeds. -/
theorem c1_amended_sole_handle :
    (∀ (validUrl : String → Bool) (track : Track) (tl : List Track) (rc : Nat)
       (env : Nat → AttemptEnv) (s : PState) (es : EngineState),
       (∀ k, safeAttempt (env k) = true) → soleHandle s es →
       soleHandle (play validUrl track tl rc env s es).1
         (play validUrl track tl rc env s es).2) ∧
    (∀ (env : StopEnv) (s : PState) (es : EngineState),
       env.cleanupUnloadThrows = false → soleHandle s es →
       soleHandle (stop env s es).1 (stop env s es).2) := by
  constructor
  · intro validUrl track tl rc env s es hsafe hsole
    exact playFuel_sole validUrl track tl env 2 rc s es hsafe hsole
  · intro env s es hcu hsole
    left
    exact stop_loaded_sole env s es hsole hcu

/-- C1 witness: the amended invariant holds concretely for a fully successful
play from the idle state, and for a stop of a playing state. -/
theorem c1_amended_sole_handle_witness :
    soleHandle (play sampleValidUrl trA [] 0 (fun _ => attemptOk) s0 es0).1
      (play sampleValidUrl trA [] 0 (fun _ => attemptOk) s0 es0).2 ∧
    soleHandle (stop stopEnvOk sB esB).1 (stop stopEnvOk sB esB).2 :=
  ⟨c1_amended_sole_handle.1 sampleValidUrl trA [] 0 (fun _ => attemptOk) s0 es0
     (fun _ => (by decide : safeAttempt attemptOk = true)) (Or.inl rfl),
   c1_amended_sole_handle.2 stopEnvOk sB esB rfl (Or.inr ⟨0, rfl, rfl⟩)⟩

/-- C2 (counterexample).  The claim says a track whose audio reference does not
resolve to a valid URL aborts with no retry; one attempt would construct
exactly one `Audio.Sound` (`nextId = 1`).  On `trBadUrl` (audio `"notaurl"`,
rejected by the validator) the invalid-source error is thrown inside the try
block, so the catch retries twice: three handles are constructed. -/
theorem c2_counterexample :
    trBadUrl.audio = some (AudioRef.str "notaurl") ∧
    sourceOk sampleValidUrl (AudioRef.str "notaurl") = false ∧
    (play sampleValidUrl trBadUrl [] 0 (fun _ => attemptOk) s0 es0).2.nextId = 3 := by
  decide

/-- C2 (amended): a missing audio reference aborts `play` with no retry (see
the C7 theorem), but a present reference that fails URI resolution/validation
throws inside the guarded block and is retried like an engine failure: three
attempts run (three `Audio.Sound` constructions), each fails the same way, no
handle is ever loaded, and the final state is fully reset with the lock
released. -/
theorem c2_amended_invalid_source_retried (validUrl : String → Bool)
    (track : Track) (tl : List Track) (env : Nat → AttemptEnv) (s : PState)
    (es : EngineState) (a : AudioRef) (hau : track.audio = some a)
    (haud : hasAudio track = true) (hbad : sourceOk validUrl a = false)
    (hlock : s.playbackLock = false) :
    play validUrl track tl 0 env s es =
      ({ sound := none, currentTrack := none, isPlaying := false, position := 0,
         duration := 0, playbackLock := false },
       { nextId := es.nextId + 3,
         loaded := (stop (env 0).stopEnv { s with playbackLock := true } es).2.loaded }) := by
  apply play_allPreLoadFail validUrl track tl env s es haud hlock
  intro k
  unfold preLoadFail
  rw [hau]
  simp [hbad]

/-- C2 witness: concrete instance of the amended theorem on `trBadUrl`. -/
theorem c2_amended_invalid_source_retried_witness :
    play sampleValidUrl trBadUrl [] 0 (fun _ => attemptOk) s0 es0 =
      ({ sound := none, currentTrack := none, isPlaying := false, position := 0,
         duration := 0, playbackLock := false },
       { nextId := es0.nextId + 3,
         loaded := (stop ((fun _ : Nat => attemptOk) 0).stopEnv
           { s0 with playbackLock := true } es0).2.loaded }) :=
  c2_amended_invalid_source_retried sampleValidUrl trBadUrl [] (fun _ => attemptOk)
    s0 es0 (AudioRef.str "notaurl") rfl (by decide) (by decide) rfl

/-- C3 (counterexample).  The claim says a retry invocation (`retryCount > 0`)
proceeds without acquiring the reentrancy guard.  Running the retry invocation
`play(trA, [], 1)` from a lock-free state with a fully successful engine leaves
`playbackLock = true`: the retry does acquire the guard on entry
(`setPlaybackLock(true)`), and the finally clause does not release it because
`retryCount ≠ 0`. -/
theorem c3_counterexample :
    s0.playbackLock = false ∧
    (play sampleValidUrl trA [] 1 (fun _ => attemptOk) s0 es0).1.playbackLock = true := by
  decide

/-- C3 (amended): after any initial (`retryCount = 0`) call made while the
guard is free returns, the guard is false again (the finally clause releases
it); a retry invocation is not blocked by the guard — the timer callback clears
it immediately before, so the attempt body runs (one `Audio.Sound` is
constructed) — but the retry re-acquires the guard on entry, and on a
successful retry the guard is still held when the invocation returns. -/
theorem c3_amended_lock_release :
    (∀ (validUrl : String → Bool) (track : Track) (tl : List Track)
       (a : AttemptEnv) (s : PState) (es : EngineState), s.playbackLock = false →
       (playReturnState validUrl track tl 0 a s es).1.playbackLock = false) ∧
    (∀ (validUrl : String → Bool) (track : Track) (tl : List Track) (rc : Nat)
       (a : AttemptEnv) (s : PState) (es : EngineState), s.playbackLock = false →
       hasAudio track = true →
       (playReturnState validUrl track tl rc a s es).2.nextId = es.nextId + 1) ∧
    (∀ (validUrl : String → Bool) (track : Track) (tl : List Track) (rc : Nat)
       (a : AttemptEnv) (s : PState) (es : EngineState), 0 < rc →
       s.playbackLock = false → attemptSucceeds validUrl track a = true →
       (playReturnState validUrl track tl rc a s es).1.playbackLock = true) :=
  ⟨playReturn_lock0, playReturn_nextId, playReturn_retryKeepsLock⟩

/-- C3 witness: concrete instances — an initial call returns with the lock
free; a retry invocation runs its attempt and returns with the lock held. -/
theorem c3_amended_lock_release_witness :
    (playReturnState sampleValidUrl trA [] 0 attemptOk s0 es0).1.playbackLock = false ∧
    (playReturnState sampleValidUrl trA [] 1 attemptOk s0 es0).2.nextId = es0.nextId + 1 ∧
    (playReturnState sampleValidUrl trA [] 1 attemptOk s0 es0).1.playbackLock = true :=
  ⟨c3_amended_lock_release.1 sampleValidUrl trA [] attemptOk s0 es0 rfl,
   c3_amended_lock_release.2.1 sampleValidUrl trA [] 1 attemptOk s0 es0 rfl (by decide),
   c3_amended_lock_release.2.2 sampleValidUrl trA [] 1 attemptOk s0 es0 (by decide)
     rfl (by decide)⟩

set_option maxHeartbeats 4000000 in
/-- C4 (counterexample).  The claim says three consecutive failures of the
load/confirm/start sequence leave no live handle and that each failure releases
the handle before the next attempt.  With the engine loading and confirming
each handle but throwing on `playAsync` (a start failure) on all three
attempts, the catch path only does `setSound(null)` and never unloads: the
tracked reference ends null, yet all three handles created by the attempts
remain loaded — no failure released its handle.  (The leaked duration 120000
of the final state also shows the mutations made before the start failure
persist.) -/
theorem c4_counterexample :
    attemptSucceeds sampleValidUrl trA attemptPlayFail = false ∧
    play sampleValidUrl trA [] 0 (fun _ => attemptPlayFail) s0 es0 =
      (⟨none, none, false, 0, 120000, false⟩, ⟨3, [2, 1, 0]⟩) := by
  decide

/-- C4 (amended): if the load/confirm/start sequence fails on the initial
attempt and on both retries — any mix of invalid-source, load, confirm or start
failures — then `play` ends with no current track, a null tracked reference and
the lock released, and every failed attempt clears the tracked reference
(`setSound(null)`) before the next attempt; but a failing attempt does not
release its engine handle, so "no live engine handle" holds only when every
failure occurs no later than `loadAsync` (so no handle was ever loaded), the
one-handle invariant held at entry and the defensive unload of the initial
`stop` succeeds. -/
theorem c4_amended_three_failures (validUrl : String → Bool) (track : Track)
    (tl : List Track) (env : Nat → AttemptEnv) (s : PState) (es : EngineState)
    (haud : hasAudio track = true) (hlock : s.playbackLock = false)
    (hfail : ∀ k, attemptSucceeds validUrl track (env k) = false) :
    (play validUrl track tl 0 env s es).1.currentTrack = none ∧
    (play validUrl track tl 0 env s es).1.sound = none ∧
    (play validUrl track tl 0 env s es).1.playbackLock = false ∧
    (∀ (au : AttemptEnv) (su : PState) (eu : EngineState),
      (playBody validUrl track tl au su eu).1 = false →
      (playBody validUrl track tl au su eu).2.1.sound = none) ∧
    ((∀ k, preLoadFail validUrl track (env k) = true) → soleHandle s es →
      (env 0).stopEnv.cleanupUnloadThrows = false →
      (play validUrl track tl 0 env s es).2.loaded = []) := by
  have hfails : ∀ (k : Nat) (su : PState) (eu : EngineState),
      (playBody validUrl track tl (env k) su eu).1 = false := fun k su eu =>
    playBody_fails_of_not_succeeds validUrl track tl (env k) su eu (hfail k)
  have hmain := playFuel_allFail validUrl track tl env haud hfails 2 0 s es hlock
  refine ⟨hmain.1, hmain.2.1, hmain.2.2, ?_, ?_⟩
  · exact fun au su eu => playBody_fail_sound_none validUrl track tl au su eu
  · intro hpre hsole hcu
    rw [play_allPreLoadFail validUrl track tl env s es haud hlock hpre]
    simpa using
      stop_loaded_sole (env 0).stopEnv { s with playbackLock := true } es hsole hcu

/-- C4 witness: three start failures on `trA` from the idle state (state fully
reset), and three load failures from a playing one-handle state (engine left
with no loaded handle). -/
theorem c4_amended_three_failures_witness :
    (play sampleValidUrl trA [] 0 (fun _ => attemptPlayFail) s0 es0).1.currentTrack = none ∧
    (play sampleValidUrl trA [] 0 (fun _ => attemptPlayFail) s0 es0).1.sound = none ∧
    (play sampleValidUrl trA [] 0 (fun _ => attemptPlayFail) s0 es0).1.playbackLock = false ∧
    (play sampleValidUrl trA [] 0 (fun _ => attemptLoadFail) sB esB).2.loaded = [] := by
  have h1 := c4_amended_three_failures sampleValidUrl trA [] (fun _ => attemptPlayFail)
    s0 es0 (by decide) rfl
    (fun _ => (by decide : attemptSucceeds sampleValidUrl trA attemptPlayFail = false))
  have h2 := c4_amended_three_failures sampleValidUrl trA [] (fun _ => attemptLoadFail)
    sB esB (by decide) rfl
    (fun _ => (by decide : attemptSucceeds sampleValidUrl trA attemptLoadFail = false))
  exact ⟨h1.1, h1.2.1, h1.2.2.1,
    h2.2.2.2.2
      (fun _ => (by decide : preLoadFail sampleValidUrl trA attemptLoadFail = true))
      (Or.inr ⟨0, rfl, rfl⟩) rfl⟩

/-- C5 (confirmed): `stop()` always terminates with the post-state {no current
track, not playing, position 0, duration 0, no tracked handle}; with no handle
it is a pure state reset that leaves the engine untouched (safe no-op); it is
idempotent (a second `stop`, under any engine behaviour, changes nothing); and
the defensive cleanup release guarantees that, from a one-handle state, no
handle remains loaded whenever the cleanup `unloadAsync` succeeds — even if the
status query, `stopAsync` or the first `unloadAsync` failed. -/
theorem c5_stop_idempotent_total :
    (∀ (env : StopEnv) (s : PState) (es : EngineState),
       (stop env s es).1.currentTrack = none ∧ (stop env s es).1.isPlaying = false ∧
       (stop env s es).1.position = 0 ∧ (stop env s es).1.duration = 0 ∧
       (stop env s es).1.sound = none) ∧
    (∀ (env : StopEnv) (s : PState) (es : EngineState), s.sound = none →
       stop env s es = (resetState s, es)) ∧
    (∀ (env env2 : StopEnv) (s : PState) (es : EngineState),
       stop env2 (stop env s es).1 (stop env s es).2 = stop env s es) ∧
    (∀ (env : StopEnv) (s : PState) (es : EngineState), soleHandle s es →
       env.cleanupUnloadThrows = false → (stop env s es).2.loaded = []) := by
  refine ⟨?_, ?_, ?_, ?_⟩
  · intro env s es
    rw [stop_fst]
    exact ⟨rfl, rfl, rfl, rfl, rfl⟩
  · exact stop_none
  · intro env env2 s es
    have h1 : (stop env s es).1.sound = none := by rw [stop_fst]; rfl
    rw [stop_none env2 _ _ h1]
    have h2 : resetState (stop env s es).1 = (stop env s es).1 := by
      rw [stop_fst]
      rfl
    rw [h2]
  · exact stop_loaded_sole

/-- C5 witness: concrete instances — stopping the idle state is a no-op reset,
stopping twice equals stopping once, and stopping a playing one-handle state
with all engine calls failing except the cleanup unload still empties the
engine. -/
theorem c5_stop_idempotent_total_witness :
    (stop stopEnvOk s0 es0).1.currentTrack = none ∧
    stop stopEnvOk s0 es0 = (resetState s0, es0) ∧
    stop stopEnvOk (stop stopEnvOk sB esB).1 (stop stopEnvOk sB esB).2 =
      stop stopEnvOk sB esB ∧
    (stop ⟨true, false, true, true, false⟩ sB esB).2.loaded = [] :=
  ⟨(c5_stop_idempotent_total.1 stopEnvOk s0 es0).1,
   c5_stop_idempotent_total.2.1 stopEnvOk s0 es0 rfl,
   c5_stop_idempotent_total.2.2.1 stopEnvOk stopEnvOk sB esB,
   c5_stop_idempotent_total.2.2.2 ⟨true, false, true, true, false⟩ sB esB
     (Or.inr ⟨0, rfl, rfl⟩) rfl⟩

/-- C6 (confirmed): when the initial attempt of `play(t, list)` succeeds (valid
source, load succeeds, status confirms loaded, start succeeds), the resulting
state records `t` with its list as current track (so `currentTrack.id = t.id`),
position 0, the playing flag set, the duration captured from the engine status,
and the fresh handle tracked. -/
theorem c6_play_success_postcondition (validUrl : String → Bool) (track : Track)
    (tl : List Track) (env : Nat → AttemptEnv) (s : PState) (es : EngineState)
    (hlock : s.playbackLock = false)
    (hsucc : attemptSucceeds validUrl track (env 0) = true) :
    (play validUrl track tl 0 env s es).1.currentTrack = some (track, tl) ∧
    (play validUrl track tl 0 env s es).1.position = 0 ∧
    (play validUrl track tl 0 env s es).1.isPlaying = true ∧
    (play validUrl track tl 0 env s es).1.duration =
      (env 0).status.durationMillis.getD 0 ∧
    (play validUrl track tl 0 env s es).1.sound = some es.nextId := by
  rw [play_succeed0 validUrl track tl env s es hlock hsucc]
  exact ⟨rfl, rfl, rfl, rfl, rfl⟩

/-- C6 witness: successful play of `trA` from the idle state. -/
theorem c6_play_success_postcondition_witness :
    (play sampleValidUrl trA [] 0 (fun _ => attemptOk) s0 es0).1.currentTrack =
      some (trA, []) ∧
    (play sampleValidUrl trA [] 0 (fun _ => attemptOk) s0 es0).1.position = 0 ∧
    (play sampleValidUrl trA [] 0 (fun _ => attemptOk) s0 es0).1.isPlaying = true ∧
    (play sampleValidUrl trA [] 0 (fun _ => attemptOk) s0 es0).1.duration =
      ((fun _ : Nat => attemptOk) 0).status.durationMillis.getD 0 ∧
    (play sampleValidUrl trA [] 0 (fun _ => attemptOk) s0 es0).1.sound =
      some es0.nextId :=
  c6_play_success_postcondition sampleValidUrl trA [] (fun _ => attemptOk) s0 es0
    rfl (by decide)

/-- C7 (counterexample).  The claim says every track lacking a usable audio
reference leaves the entire playback state unchanged with no handle created.
`trObjNone` carries the unusable reference `{ uri: undefined }`: it passes the
truthiness guard, so `play` tears down the current playback (the remembered
current track is cleared), constructs three engine handles across the retries,
and does not leave the state unchanged. -/
theorem c7_counterexample :
    (play sampleValidUrl trObjNone [] 0 (fun _ => attemptOk) sWithTrack es0).1.currentTrack = none ∧
    sWithTrack.currentTrack = some (trA, []) ∧
    (play sampleValidUrl trObjNone [] 0 (fun _ => attemptOk) sWithTrack es0).2.nextId = 3 ∧
    play sampleValidUrl trObjNone [] 0 (fun _ => attemptOk) sWithTrack es0 ≠
      (sWithTrack, es0) := by
  decide

/-- C7 (amended): `play` leaves the playback and engine state entirely
unchanged when the track's audio reference is missing (absent field, or an
empty-string URI — the falsy-guard cases) and likewise when a play is already
in flight (reentrancy guard set); a present but unusable reference instead
reaches the invalid-source path (see the C2 theorem). -/
theorem c7_amended_guard_noop :
    (∀ (validUrl : String → Bool) (track : Track) (tl : List Track) (rc : Nat)
       (env : Nat → AttemptEnv) (s : PState) (es : EngineState),
       hasAudio track = false → play validUrl track tl rc env s es = (s, es)) ∧
    (∀ (validUrl : String → Bool) (track : Track) (tl : List Track) (rc : Nat)
       (env : Nat → AttemptEnv) (s : PState) (es : EngineState),
       s.playbackLock = true → play validUrl track tl rc env s es = (s, es)) :=
  ⟨play_noAudio, play_locked⟩

/-- C7 witness: a track with no audio field and a locked state both leave
everything unchanged. -/
theorem c7_amended_guard_noop_witness :
    play sampleValidUrl ⟨"n", "N", none⟩ [] 0 (fun _ => attemptOk) sWithTrack es0 =
      (sWithTrack, es0) ∧
    play sampleValidUrl trA [] 0 (fun _ => attemptOk)
      { sB with playbackLock := true } esB = ({ sB with playbackLock := true }, esB) :=
  ⟨c7_amended_guard_noop.1 sampleValidUrl ⟨"n", "N", none⟩ [] 0 (fun _ => attemptOk)
     sWithTrack es0 rfl,
   c7_amended_guard_noop.2 sampleValidUrl trA [] 0 (fun _ => attemptOk)
     { sB with playbackLock := true } esB rfl⟩

/-- C8 (confirmed): `playNext`/`playPrevious` with a current track, a non-empty
attached list and a free lock locate the current index by identifier (`-1`
defaulting to 0); with no adjacent index in the requested direction they are
no-ops, otherwise they invoke `play` on the adjacent track with the same list.
Concretely, on the list `[trA, trB, trC]` with current `trB`, `playNext` makes
`trC` current and `playPrevious` makes `trA` current (each with the same list
attached); with current `trD` not in the list, the index defaults to 0 and
`playNext` makes `trB` current. -/
theorem c8_next_previous :
    (∀ (validUrl : String → Bool) (env : Nat → AttemptEnv) (s : PState)
       (es : EngineState) (ct : Track) (tl : List Track),
       s.currentTrack = some (ct, tl) → s.playbackLock = false → tl ≠ [] →
       ¬((tl.findIdx? fun t => t.id == ct.id).getD 0 < tl.length - 1) →
       playNext validUrl env s es = (s, es)) ∧
    (∀ (validUrl : String → Bool) (env : Nat → AttemptEnv) (s : PState)
       (es : EngineState) (ct : Track) (tl : List Track),
       s.currentTrack = some (ct, tl) → s.playbackLock = false → tl ≠ [] →
       (tl.findIdx? fun t => t.id == ct.id).getD 0 = 0 →
       playPrevious validUrl env s es = (s, es)) ∧
    (∀ (validUrl : String → Bool) (env : Nat → AttemptEnv) (s : PState)
       (es : EngineState) (ct : Track) (tl : List Track),
       s.currentTrack = some (ct, tl) → s.playbackLock = false → tl ≠ [] →
       (tl.findIdx? fun t => t.id == ct.id).getD 0 < tl.length - 1 →
       playNext validUrl env s es =
         play validUrl (tl.getD ((tl.findIdx? fun t => t.id == ct.id).getD 0 + 1) ct)
           tl 0 env s es) ∧
    (∀ (validUrl : String → Bool) (env : Nat → AttemptEnv) (s : PState)
       (es : EngineState) (ct : Track) (tl : List Track),
       s.currentTrack = some (ct, tl) → s.playbackLock = false → tl ≠ [] →
       0 < (tl.findIdx? fun t => t.id == ct.id).getD 0 →
       playPrevious validUrl env s es =
         play validUrl (tl.getD ((tl.findIdx? fun t => t.id == ct.id).getD 0 - 1) ct)
           tl 0 env s es) ∧
    (playNext sampleValidUrl (fun _ => attemptOk) sB esB).1.currentTrack =
      some (trC, [trA, trB, trC]) ∧
    (playPrevious sampleValidUrl (fun _ => attemptOk) sB esB).1.currentTrack =
      some (trA, [trA, trB, trC]) ∧
    (playNext sampleValidUrl (fun _ => attemptOk) sD esB).1.currentTrack =
      some (trB, [trA, trB, trC]) :=
  ⟨playNext_atEnd, playPrevious_atStart, playNext_adjacent, playPrevious_adjacent,
   by decide, by decide, by decide⟩

/-- C8 witness: the boundary no-ops at the last and first index on the concrete
list `[trA, trB, trC]`. -/
theorem c8_next_previous_witness :
    playNext sampleValidUrl (fun _ => attemptOk) sC esB = (sC, esB) ∧
    playPrevious sampleValidUrl (fun _ => attemptOk) sA esB = (sA, esB) :=
  ⟨c8_next_previous.1 sampleValidUrl (fun _ => attemptOk) sC esB trC [trA, trB, trC]
     rfl rfl (by decide) (by decide),
   c8_next_previous.2.1 sampleValidUrl (fun _ => attemptOk) sA esB trA [trA, trB, trC]
     rfl rfl (by decide) (by decide)⟩

/-- C9 (confirmed): the cache merge of `cacheTracks` deduplicates by
identifier — the merged list's identifiers are pairwise distinct, so at most
one entry per track identifier — and is idempotent: merging the same batch (in
particular the same single track) a second time returns exactly the list
obtained from merging it once. -/
theorem c9_cache_merge :
    (∀ existing newTracks : List Track,
       ((cacheMerge existing newTracks).map (fun t => t.id)).Nodup) ∧
    (∀ existing batch : List Track,
       cacheMerge (cacheMerge existing batch) batch = cacheMerge existing batch) :=
  ⟨cacheMerge_ids_nodup, cacheMerge_idem⟩

/-- C10 (confirmed): if a retry invocation (`retryCount > 0`) completes its
load/start sequence successfully, the lock it acquired on entry is still held
when it returns (the finally clause only releases for `retryCount = 0`); and a
held lock is permanent for the coordinator: `play`, `playNext` and
`playPrevious` are no-ops while it is set, and no operation — including
`stop`, `pause`, `resume` and `seek` — ever writes the lock back to false. -/
theorem c10_lock_leak :
    (∀ (validUrl : String → Bool) (track : Track) (tl : List Track) (rc : Nat)
       (env : Nat → AttemptEnv) (s : PState) (es : EngineState), 0 < rc →
       s.playbackLock = false → attemptSucceeds validUrl track (env rc) = true →
       (play validUrl track tl rc env s es).1.playbackLock = true) ∧
    (∀ (validUrl : String → Bool) (track : Track) (tl : List Track) (rc : Nat)
       (env : Nat → AttemptEnv) (s : PState) (es : EngineState),
       s.playbackLock = true → play validUrl track tl rc env s es = (s, es)) ∧
    (∀ (validUrl : String → Bool) (env : Nat → AttemptEnv) (s : PState)
       (es : EngineState), s.playbackLock = true →
       playNext validUrl env s es = (s, es) ∧ playPrevious validUrl env s es = (s, es)) ∧
    (∀ (env : StopEnv) (s : PState) (es : EngineState) (cenv : CallEnv) (v : Nat),
       (stop env s es).1.playbackLock = s.playbackLock ∧
       (pause cenv s).playbackLock = s.playbackLock ∧
       (resume cenv s).playbackLock = s.playbackLock ∧
       (seek cenv v s).playbackLock = s.playbackLock) :=
  ⟨play_succeedPos,
   play_locked,
   fun validUrl env s es h =>
     ⟨playNext_locked validUrl env s es h, playPrevious_locked validUrl env s es h⟩,
   fun env s es cenv v =>
     ⟨stop_lock env s es, pause_lock cenv s, resume_lock cenv s, seek_lock cenv v s⟩⟩

/-- C10 witness: a successful retry invocation from the idle state leaves the
lock held, after which `play`, `playNext` and `playPrevious` are concrete
no-ops and `stop` keeps the lock held. -/
theorem c10_lock_leak_witness :
    (play sampleValidUrl trA [] 1 (fun _ => attemptOk) s0 es0).1.playbackLock = true ∧
    play sampleValidUrl trB [] 0 (fun _ => attemptOk)
      { sB with playbackLock := true } esB = ({ sB with playbackLock := true }, esB) ∧
    playNext sampleValidUrl (fun _ => attemptOk)
      { sB with playbackLock := true } esB = ({ sB with playbackLock := true }, esB) ∧
    (stop stopEnvOk { sB with playbackLock := true } esB).1.playbackLock =
      ({ sB with playbackLock := true } : PState).playbackLock :=
  ⟨c10_lock_leak.1 sampleValidUrl trA [] 1 (fun _ => attemptOk) s0 es0 (by decide)
     rfl (by decide),
   c10_lock_leak.2.1 sampleValidUrl trB [] 0 (fun _ => attemptOk)
     { sB with playbackLock := true } esB rfl,
   (c10_lock_leak.2.2.1 sampleValidUrl (fun _ => attemptOk)
     { sB with playbackLock := true } esB rfl).1,
   (c10_lock_leak.2.2.2 stopEnvOk { sB with playbackLock := true } esB
     ⟨false, true, false⟩ 0).1⟩
